import Mathlib

/-!
Shallow embedding of the flood-dataset Streamlit repository
(`preprocess_data.py` and `app.py`).

Numeric dataframe cells are modelled as rationals (`ℚ`), dataframes as
lists of rows, and pandas operations (`dropna`, `groupby(...).agg`,
`merge`, `drop_duplicates`, `nlargest`) as the corresponding list
transformations.  Geometry payloads are opaque (`Nat` stand-ins): no
claim depends on the content of a geometry, only on the join keys.
-/

namespace Flood

/-- One row of `flood_df` after the column subset at
`preprocess_data.py` (`app_cols`) and the rename map.  `mon-yr` is the
possibly-missing time key (`monYr`); `adm1_name` and `Country` may be
null in the source CSV, hence `Option`.  The eight numeric metrics are
the renamed columns; `damages` here is the raw CSV column
"Total Damage, Adjusted ('000 US$) (population-weighted)" before any
rescaling (the pipeline rescales it, see `scaleDamages`). -/
structure Record where
  monYr : Option String
  adm1_code : Int
  adm1_name : Option String
  ISO : String
  country : Option String
  subregion : String
  damages : ℚ
  damages_norm : ℚ
  pop_affected : ℚ
  pop_affected_norm : ℚ
  flooded_area : ℚ
  flooded_area_norm : ℚ
  avg_precip : ℚ
  extreme_precip_75 : ℚ
  deriving Repr, DecidableEq

/-- The 8 aggregated metrics (`metrics` list in `preprocess_data.py`). -/
inductive Metric where
  | damages | damages_norm | pop_affected | pop_affected_norm
  | flooded_area | flooded_area_norm | avg_precip | extreme_precip_75
  deriving Repr, DecidableEq

/-- Value of a metric column in a record. -/
def metricVal : Metric → Record → ℚ
  | .damages, r => r.damages
  | .damages_norm, r => r.damages_norm
  | .pop_affected, r => r.pop_affected
  | .pop_affected_norm, r => r.pop_affected_norm
  | .flooded_area, r => r.flooded_area
  | .flooded_area_norm, r => r.flooded_area_norm
  | .avg_precip, r => r.avg_precip
  | .extreme_precip_75, r => r.extreme_precip_75

/-- The `COUNTRY_CORRECTIONS` dictionary: admin1 codes reassigned to a
fixed country. -/
def countryCorrection : Int → Option String
  | 2720 => some "Spain"
  | 2961 => some "Timor-Leste"
  | 25351 => some "Montenegro"
  | 25355 => some "Montenegro"
  | 25356 => some "Montenegro"
  | 25365 => some "Montenegro"
  | 25372 => some "Serbia"
  | 25373 => some "Serbia"
  | 25375 => some "Serbia"
  | 25376 => some "Serbia"
  | 25378 => some "Serbia"
  | 25379 => some "Serbia"
  | 25381 => some "Serbia"
  | 25385 => some "Serbia"
  | 25389 => some "Serbia"
  | 25394 => some "Serbia"
  | 25395 => some "Serbia"
  | 40408 => some "Jammu and Kashmir"
  | 40409 => some "Jammu and Kashmir"
  | 40422 => some "Jammu and Kashmir"
  | 40423 => some "Jammu and Kashmir"
  | 40424 => some "Jammu and Kashmir"
  | 40425 => some "Jammu and Kashmir"
  | 40426 => some "Jammu and Kashmir"
  | 40427 => some "Jammu and Kashmir"
  | 40428 => some "Jammu and Kashmir"
  | 40429 => some "Jammu and Kashmir"
  | 40430 => some "Jammu and Kashmir"
  | 40431 => some "Jammu and Kashmir"
  | _ => none

/-- Apply a `COUNTRY_CORRECTIONS` entry to one record
(`flood_df_subset.loc[mask, "Country"] = correct_country`). -/
def applyCorrection (r : Record) : Record :=
  match countryCorrection r.adm1_code with
  | some c => { r with country := some c }
  | none => r

/-- `flood_df_subset["damages"] = flood_df_subset["damages"] * 1000`:
rescale thousands of dollars to dollars. -/
def scaleDamages (r : Record) : Record :=
  { r with damages := r.damages * 1000 }

/-- The preprocessed flood event table `flood_df_subset`: drop rows
with a missing `mon-yr`, apply the country corrections, rescale
`damages`.  (Column subset and renames are implicit in `Record`.) -/
def floodSubset (raws : List Record) : List Record :=
  ((raws.filter (fun r => r.monYr.isSome)).map applyCorrection).map scaleDamages

/-- Parse a digit string into a natural number; `none` as soon as a
non-digit appears. -/
def natOfChars (cs : List Char) : Option Nat :=
  cs.foldl (fun acc c =>
    acc.bind (fun n => if c.isDigit then some (n * 10 + (c.toNat - 48)) else none))
    (some 0)

/-- The `year` column: last 4 characters of `mon-yr`, parsed as an
integer (`.str[-4:].astype(int)`).  On the rows the pipeline keeps,
`mon-yr` is present and ends in a 4-digit year — `pandas` would abort
the whole run otherwise — so the `0` default for a missing or
malformed string is never exercised there. -/
def yearOf (r : Record) : Int :=
  let cs := (r.monYr.getD "").data
  match natOfChars (cs.drop (cs.length - 4)) with
  | some n => (n : Int)
  | none => 0

/-! ### Groupby machinery

`pandas.groupby` partitions a table by a key column; we model the set of
group keys (first-occurrence order) and the per-key group of rows. -/

/-- Distinct values of a list not already in `seen`, keeping the first
occurrence of each. -/
def uniqueKeysFrom {κ : Type} [DecidableEq κ] (seen : List κ) :
    List κ → List κ
  | [] => []
  | k :: ks =>
      if k ∈ seen then uniqueKeysFrom seen ks
      else k :: uniqueKeysFrom (k :: seen) ks

/-- Distinct values of a list, keeping the first occurrence of each
(the key set of a `groupby`, and `drop_duplicates` on a full row
projection). -/
def uniqueKeys {κ : Type} [DecidableEq κ] (l : List κ) : List κ :=
  uniqueKeysFrom [] l

/-- The group of rows with key `k` under key function `key`. -/
def groupOf {α κ : Type} [DecidableEq κ] (key : α → κ) (rows : List α)
    (k : κ) : List α :=
  rows.filter (fun r => key r = k)

/-- The keys of a `groupby key` over `rows`. -/
def keysOf {α κ : Type} [DecidableEq κ] (key : α → κ) (rows : List α) :
    List κ :=
  uniqueKeys (rows.map key)

/-! ### Aggregation statistics

The four aggregation functions `["mean", "median", "max", "sum"]`,
as computed by pandas on a (nonempty) group of rational values. -/

/-- Sum of a list of rationals. -/
def sumQ (l : List ℚ) : ℚ := l.foldr (· + ·) 0

/-- Arithmetic mean (pandas `mean`); `0` on the empty list, which no
nonempty group ever produces. -/
def meanQ (l : List ℚ) : ℚ := sumQ l / l.length

/-- Maximum (pandas `max`); `0` on the empty list. -/
def maxQ : List ℚ → ℚ
  | [] => 0
  | x :: xs => xs.foldl max x

/-- Insert into an ascending-sorted list of rationals. -/
def insertAsc (x : ℚ) : List ℚ → List ℚ
  | [] => [x]
  | y :: ys => if x ≤ y then x :: y :: ys else y :: insertAsc x ys

/-- Ascending insertion sort of rationals. -/
def sortQ : List ℚ → List ℚ
  | [] => []
  | x :: xs => insertAsc x (sortQ xs)

/-- Median as pandas computes it: middle element of the sorted values
for odd length, average of the two middle elements for even length. -/
def medianQ (l : List ℚ) : ℚ :=
  let s := sortQ l
  let n := s.length
  if n = 0 then 0
  else if n % 2 = 1 then s.getD (n / 2) 0
  else (s.getD (n / 2 - 1) 0 + s.getD (n / 2) 0) / 2

/-- The aggregation functions `agg_funcs = ["mean", "median", "max", "sum"]`. -/
inductive Stat where
  | mean | median | max | sum
  deriving Repr, DecidableEq

/-- Apply an aggregation function to the values of a group. -/
def aggStat : Stat → List ℚ → ℚ
  | .mean, l => meanQ l
  | .median, l => medianQ l
  | .max, l => maxQ l
  | .sum, l => sumQ l

/-! ### Aggregate tables

`groupby(key)[metrics].agg(agg_funcs)` flattened to `{metric}_{func}`
columns, merged with the per-group row count (`flood_count`). -/

/-- One row of a flattened aggregate table keyed by `κ`: the key, the
32 `{metric}_{func}` cells, and the merged `flood_count`. -/
structure AggRow (κ : Type) where
  key : κ
  stat : Metric → Stat → ℚ
  flood_count : Nat

/-- Build the row of an aggregate table for one group key. -/
def mkAggRow {κ : Type} [DecidableEq κ] (key : Record → κ)
    (rows : List Record) (k : κ) : AggRow κ :=
  { key := k
    stat := fun m s => aggStat s ((groupOf key rows k).map (metricVal m))
    flood_count := (groupOf key rows k).length }

/-- `rows.groupby(key)[metrics].agg(agg_funcs)` merged with
`rows.groupby(key).size()` (`flood_count`): one row per group key. -/
def aggTable {κ : Type} [DecidableEq κ] (key : Record → κ)
    (rows : List Record) : List (AggRow κ) :=
  (keysOf key rows).map (mkAggRow key rows)

/-! ### Display names -/

/-- `"Unknown Name (code: <code>)"`, the synthesized fallback
(`astype(int).astype(str)` on the numeric code). -/
def unknownName (code : Int) : String :=
  "Unknown Name (code: " ++ toString code ++ ")"

/-- The fallback replacement applied to the merged admin1 name column:
a missing name, or the sentinel "Administrative unit not available",
becomes `unknownName code`. -/
def fixAdmin1Name (code : Int) : Option String → String
  | none => unknownName code
  | some s =>
      if s = "Administrative unit not available" then unknownName code else s

/-- One row of `admin1_agg` after the name merge and fallback. -/
structure Admin1Row where
  adm1_code : Int
  stat : Metric → Stat → ℚ
  flood_count : Nat
  adm1_name : String
  country : Option String

/-- The admin1 aggregate table: `groupby("adm1_code")` aggregation,
plus the name columns taken from
`flood_df_subset[["adm1_code", "Admin1 (States/Provinces)", "Country"]]
.drop_duplicates(subset=["adm1_code"])` — i.e. from the FIRST row of
the table carrying each code — merged `how="left"`, with the fallback
applied to the admin1 name. -/
def admin1AggRows (rows : List Record) : List Admin1Row :=
  (keysOf (fun r => r.adm1_code) rows).map (fun k =>
    let base := mkAggRow (fun r => r.adm1_code) rows k
    let firstRow := rows.find? (fun r => r.adm1_code = k)
    { adm1_code := k
      stat := base.stat
      flood_count := base.flood_count
      adm1_name := fixAdmin1Name k (firstRow.bind (fun r => r.adm1_name))
      country := firstRow.bind (fun r => r.country) })

/-- One row of `country_agg` after the name merge. -/
structure CountryRow where
  ISO : String
  stat : Metric → Stat → ℚ
  flood_count : Nat
  country : Option String

/-- `country_names = flood_df_subset[["ISO", "Country"]].drop_duplicates()`:
the distinct (ISO, Country) pairs, in first-occurrence order.  Note the
`drop_duplicates` has no `subset`, so one ISO may contribute several
pairs when it occurs with several country names. -/
def isoCountryPairs (rows : List Record) : List (String × Option String) :=
  uniqueKeys (rows.map (fun r => (r.ISO, r.country)))

/-- The country aggregate table: `groupby("ISO")` aggregation merged
`how="left"` with `country_names` on `ISO`.  A left merge emits one
output row per matching right-hand row (several, if an ISO carries
several distinct country names), or a single row with a null name if
there is no match. -/
def countryAggRows (rows : List Record) : List CountryRow :=
  (keysOf (fun r => r.ISO) rows).flatMap (fun k =>
    let base := mkAggRow (fun r => r.ISO) rows k
    let names := (isoCountryPairs rows).filter (fun p => p.1 = k)
    if names.isEmpty then
      [{ ISO := k, stat := base.stat, flood_count := base.flood_count,
         country := none }]
    else
      names.map (fun p =>
        { ISO := k, stat := base.stat, flood_count := base.flood_count,
          country := p.2 }))

/-- One row of an annual-totals table: `groupby("year")[metrics].sum()`
merged with the per-year row count. -/
structure AnnualRow where
  year : Int
  total : Metric → ℚ
  flood_count : Nat

/-- `annual_global`: per-year metric sums plus `flood_count`. -/
def annualRows (rows : List Record) : List AnnualRow :=
  (keysOf yearOf rows).map (fun y =>
    { year := y
      total := fun m => sumQ ((groupOf yearOf rows y).map (metricVal m))
      flood_count := (groupOf yearOf rows y).length })

/-! ### Geometry tables and joins

A geometry table is a list of (key, geometry) pairs; geometry content
is opaque (`Nat`).  `left.merge(right, on=key, how="inner")` with the
geometry table on the left emits, for each left row in order, one
output row per matching right row. -/

/-- Inner merge of a geometry table (left) with an aggregate table
(right) on the region key. -/
def geoInnerJoin {κ β : Type} [DecidableEq κ] (geo : List (κ × Nat))
    (agg : List β) (key : β → κ) : List (κ × Nat × β) :=
  geo.flatMap (fun g =>
    (agg.filter (fun r => key r = g.1)).map (fun r => (g.1, g.2, r)))

/-- `m49_subregion_gdf`: merge the M49 (ISO, Subregion) table with the
country geometries (`how="left"`), drop rows with no geometry, and
`dissolve(by="Subregion")` — one row per subregion, its geometry the
union of its member countries' geometries (union abstracted as a sum
of the opaque payloads). -/
def dissolveSubregions (m49 : List (String × String))
    (countryGeo : List (String × Nat)) : List (String × Nat) :=
  let merged : List (String × Nat) :=
    m49.flatMap (fun p =>
      (countryGeo.filter (fun g => g.1 = p.1)).map (fun g => (p.2, g.2)))
  (uniqueKeys (merged.map (fun q => q.1))).map (fun s =>
    (s, ((merged.filter (fun q => q.1 = s)).map (fun q => q.2)).foldr (· + ·) 0))

/-! ### The full preprocessing pipeline -/

/-- The input files of `preprocess_data.py`: the raw flood CSV, the
GAUL admin1 geometries, the natural-earth country geometries, the M49
(ISO, Subregion) table, and the land outline. -/
structure PipelineInput where
  floodRaw : List Record
  gaulGeo : List (Int × Nat)
  countryGeo : List (String × Nat)
  m49 : List (String × String)
  landGeo : List Nat

/-- The five exported tables. -/
structure PipelineOutput where
  admin1 : List (Int × Nat × Admin1Row)
  country : List (String × Nat × CountryRow)
  subregion : List (String × Nat × AggRow String)
  annual : List AnnualRow
  land : List Nat

/-- The whole in-memory computation of `preprocess_data.py.main`: the
flood table preprocessing, the three regional aggregations with their
geometry inner-joins, and the annual totals.  A pure function of the
input files. -/
def runPipeline (inp : PipelineInput) : PipelineOutput :=
  let subset := floodSubset inp.floodRaw
  { admin1 := geoInnerJoin inp.gaulGeo (admin1AggRows subset)
      (fun r => r.adm1_code)
    country := geoInnerJoin inp.countryGeo (countryAggRows subset)
      (fun r => r.ISO)
    subregion := geoInnerJoin (dissolveSubregions inp.m49 inp.countryGeo)
      (aggTable (fun r => r.subregion) subset) (fun r => r.key)
    annual := annualRows subset
    land := inp.landGeo }

/-! ### Export sequence (`main`, export section)

`main` runs its computation stages first and then the five
`to_parquet` calls, one after another.  We model the script as the
ordered list of its stages; a run that fails after completing `k`
stages has performed exactly the writes among the first `k` stages. -/

/-- The five output parquet files, in export order. -/
inductive OutFile where
  | admin1 | country | subregion | annual | land
  deriving Repr, DecidableEq

/-- A stage of `main`: either an in-memory computation (loads,
preprocessing, aggregation) or one `to_parquet` export. -/
inductive PipelineStage where
  | compute (label : String)
  | exportFile (f : OutFile)
  deriving Repr, DecidableEq

/-- The ordered stages of `main`: all computation first, then the five
exports in source order. -/
def mainStages : List PipelineStage :=
  [.compute "load inputs",
   .compute "preprocess flood table",
   .compute "aggregate and join",
   .exportFile .admin1,
   .exportFile .country,
   .exportFile .subregion,
   .exportFile .annual,
   .exportFile .land]

/-- The files written by a list of stages. -/
def writesOf (stages : List PipelineStage) : List OutFile :=
  stages.filterMap (fun s =>
    match s with
    | .exportFile f => some f
    | .compute _ => none)

/-- The output files (over)written by a run of `main` that fails at
stage index `k` (0-based), i.e. after completing the first `k`
stages. -/
def writtenOnFailureAt (k : Nat) : List OutFile :=
  writesOf (mainStages.take k)

end Flood

namespace App

/-! ### Presentation layer (`app.py`)

The selection surface is a fixed enumeration: 6 variables, 3
geographic levels, 4 statistics, a normalize flag. -/

/-- The six entries of the "Variable" selectbox. -/
inductive AppVariable where
  | econDamages | popAffected | floodedArea | floodCount
  | avgPrecip | extremePrecip75
  deriving Repr, DecidableEq

/-- The display label of a variable (the selectbox strings). -/
def variableLabel : AppVariable → String
  | .econDamages => "Economic Damages"
  | .popAffected => "Population Affected"
  | .floodedArea => "Flooded Area"
  | .floodCount => "Flood Count"
  | .avgPrecip => "Avg Precipitation (Flood)"
  | .extremePrecip75 => "Avg 75th Percentile Precipitation (Flood)"

/-- The `var_map` dictionary: variable label ↦ (base column,
normalized column), with `None` entries as in the source. -/
def var_map : AppVariable → Option String × Option String
  | .econDamages => (some "damages", some "damages_norm")
  | .popAffected => (some "pop_affected", some "pop_affected_norm")
  | .floodedArea => (some "flooded_area", some "flooded_area_norm")
  | .floodCount => (none, none)
  | .avgPrecip => (some "avg_precip", none)
  | .extremePrecip75 => (some "extreme_precip_75", none)

/-- The four entries of the "Statistic" selectbox. -/
inductive AggMetric where
  | mean | median | max | sum
  deriving Repr, DecidableEq

/-- The selectbox label of a statistic. -/
def aggMetricLabel : AggMetric → String
  | .mean => "Mean"
  | .median => "Median"
  | .max => "Max"
  | .sum => "Sum"

/-- Python's `str.lower()`, per-character lowercase (the labels it is
applied to are plain ASCII). -/
def pyLower (s : String) : String := String.mk (s.data.map Char.toLower)

/-- Column-name resolution of the map and bar fragments:
`value_col = "flood_count"` for "Flood Count"; otherwise
`base_name = norm_col if (normalize and norm_col) else base_col` and
`value_col = f"{base_name}_{agg_metric.lower()}"`.  (`norm_col` is
truthy exactly when it is not `None`.) -/
def valueCol (v : AppVariable) (normalize : Bool)
    (agg_metric : AggMetric) : String :=
  if variableLabel v = "Flood Count" then "flood_count"
  else
    let base_col := (var_map v).1
    let norm_col := (var_map v).2
    let base_name :=
      if normalize ∧ norm_col.isSome then norm_col.getD ""
      else base_col.getD ""
    base_name ++ "_" ++ pyLower (aggMetricLabel agg_metric)

/-- The three entries of the "Geographic Level" selectbox. -/
inductive GeoLevel where
  | admin1 | country | subregion
  deriving Repr, DecidableEq

/-- The display label of a geographic level. -/
def geoLevelLabel : GeoLevel → String
  | .admin1 => "Admin1 (States/Provinces)"
  | .country => "Country"
  | .subregion => "UN Subregion"

/-- `max_regions = 15 if region == "UN Subregion" else 30`: the upper
bound of the "Number of regions" slider. -/
def maxRegions (region : GeoLevel) : Nat :=
  if geoLevelLabel region = "UN Subregion" then 15 else 30

/-- Insert a (name, value) row into a list sorted descending by value,
after any earlier row of equal value (stability, matching
`nlargest(..., keep="first")`). -/
def insertDesc (x : String × ℚ) : List (String × ℚ) → List (String × ℚ)
  | [] => [x]
  | y :: ys => if y.2 ≤ x.2 then x :: y :: ys else y :: insertDesc x ys

/-- Stable descending sort by value. -/
def sortDesc : List (String × ℚ) → List (String × ℚ)
  | [] => []
  | x :: xs => insertDesc x (sortDesc xs)

/-- `df.nlargest(n, value_col)`: the `n` rows with the largest values,
in descending value order (earlier rows first among ties). -/
def nlargestBy (n : Nat) (rows : List (String × ℚ)) : List (String × ℚ) :=
  (sortDesc rows).take n

end App

namespace Flood

/-! ### Concrete test fixtures -/

/-- A synthetic event record with a given admin1 code, month-year and
damages value (all other metrics zero). -/
def exRec (code : Int) (my : String) (d : ℚ) : Record :=
  { monYr := some my, adm1_code := code, adm1_name := some "Name",
    ISO := "AAA", country := some "X", subregion := "S",
    damages := d, damages_norm := 0, pop_affected := 0,
    pop_affected_norm := 0, flooded_area := 0, flooded_area_norm := 0,
    avg_precip := 0, extreme_precip_75 := 0 }

/-- The record set of the end-to-end scenario:
`{(adm1=10, year=2020, damages=100), (adm1=10, year=2021, damages=300),
(adm1=20, year=2020, damages=50)}`. -/
def exRecs : List Record :=
  [exRec 10 "01-2020" 100, exRec 10 "01-2021" 300, exRec 20 "01-2020" 50]

/-- A pipeline input built over `exRecs`, with admin1 geometry only for
code 10, country geometry for ISO "AAA" and subregion geometry for
subregion "S" (via the M49 table). -/
def exInput : PipelineInput :=
  { floodRaw := exRecs
    gaulGeo := [(10, 7)]
    countryGeo := [("AAA", 8)]
    m49 := [("AAA", "S")]
    landGeo := [9] }

/-- A record whose admin1 name is missing in the source (group key 5,
first row of its group). -/
def noNameRec : Record :=
  { exRec 5 "01-2020" 1 with adm1_name := none }

/-- A later record of the same group carrying a non-null admin1 name. -/
def namedRec : Record :=
  { exRec 5 "02-2020" 2 with adm1_name := some "Foo" }

/-- Modelled from the spec: "a display name ... chosen as the first
non-null value per group" — the first non-`none` entry of a column. -/
def firstNonNull {α : Type} (l : List (Option α)) : Option α :=
  (l.filterMap id).head?

/-- Two records sharing ISO "AAA" but carrying different country
names. -/
def dupIsoRecA : Record := exRec 1 "01-2020" 0

/-- Second record of the shared-ISO pair, with country name "Y". -/
def dupIsoRecB : Record :=
  { exRec 2 "01-2020" 0 with country := some "Y" }

/-- A pipeline input whose event table carries one ISO with two
distinct country names. -/
def dupIsoInput : PipelineInput :=
  { floodRaw := [dupIsoRecA, dupIsoRecB]
    gaulGeo := [(1, 7), (2, 7)]
    countryGeo := [("AAA", 8)]
    m49 := [("AAA", "S")]
    landGeo := [9] }

/-- The five output files in export order. -/
def allOutFiles : List OutFile :=
  [.admin1, .country, .subregion, .annual, .land]

end Flood

namespace Flood

/-! ### General list lemmas -/

theorem mem_uniqueKeysFrom {κ : Type} [DecidableEq κ] (l : List κ)
    (seen : List κ) (a : κ) :
    a ∈ uniqueKeysFrom seen l ↔ (a ∈ l ∧ a ∉ seen) := by
  induction l generalizing seen with
  | nil => simp [uniqueKeysFrom]
  | cons k ks ih =>
    simp only [uniqueKeysFrom]
    by_cases hks : k ∈ seen
    · rw [if_pos hks, ih]
      simp only [List.mem_cons]
      constructor
      · exact fun h => ⟨Or.inr h.1, h.2⟩
      · rintro ⟨rfl | hmem, hns⟩
        · exact absurd hks hns
        · exact ⟨hmem, hns⟩
    · rw [if_neg hks]
      simp only [List.mem_cons, ih, List.mem_cons]
      constructor
      · rintro (rfl | ⟨hmem, hna⟩)
        · exact ⟨Or.inl rfl, hks⟩
        · exact ⟨Or.inr hmem, fun hs => hna (Or.inr hs)⟩
      · rintro ⟨rfl | hmem, hns⟩
        · exact Or.inl rfl
        · by_cases hak : a = k
          · exact Or.inl hak
          · exact Or.inr ⟨hmem, fun hs => by
              rcases hs with h1 | h2
              · exact hak h1
              · exact hns h2⟩

theorem mem_uniqueKeys {κ : Type} [DecidableEq κ] (l : List κ) (a : κ) :
    a ∈ uniqueKeys l ↔ a ∈ l := by
  unfold uniqueKeys
  rw [mem_uniqueKeysFrom]
  simp

theorem uniqueKeysFrom_nodup {κ : Type} [DecidableEq κ] (l : List κ)
    (seen : List κ) : (uniqueKeysFrom seen l).Nodup := by
  induction l generalizing seen with
  | nil => exact List.nodup_nil
  | cons k ks ih =>
    simp only [uniqueKeysFrom]
    by_cases hks : k ∈ seen
    · rw [if_pos hks]; exact ih seen
    · rw [if_neg hks]
      refine List.Nodup.cons ?_ (ih (k :: seen))
      intro hmem
      exact ((mem_uniqueKeysFrom _ _ _).1 hmem).2 (List.mem_cons_self k seen)

theorem uniqueKeys_nodup {κ : Type} [DecidableEq κ] (l : List κ) :
    (uniqueKeys l).Nodup :=
  uniqueKeysFrom_nodup l []

theorem length_filter_key_le_one {α κ : Type} [DecidableEq κ] (key : α → κ)
    (l : List α) (h : (l.map key).Nodup) (k : κ) :
    (l.filter (fun r => key r = k)).length ≤ 1 := by
  induction l with
  | nil => simp
  | cons a t ih =>
    simp only [List.map_cons, List.nodup_cons, List.mem_map] at h
    by_cases hk : key a = k
    · rw [List.filter_cons_of_pos (by simp [hk])]
      have hnil : t.filter (fun r => key r = k) = [] := by
        rw [List.filter_eq_nil_iff]
        intro b hb hbk
        exact h.1 ⟨b, hb, by simp at hbk; rw [hbk, hk]⟩
      simp [hnil]
    · rw [List.filter_cons_of_neg (by simp [hk])]
      exact ih h.2

theorem nodup_le_one_length {α : Type} (l : List α) (h : l.length ≤ 1) :
    l.Nodup := by
  match l with
  | [] => exact List.nodup_nil
  | [a] => exact List.nodup_singleton a
  | a :: b :: t => simp at h

theorem length_filter_le_one_of_eq {α : Type} (l : List α) (p : α → Bool)
    (hl : l.Nodup) (hfun : ∀ a ∈ l, ∀ b ∈ l, p a → p b → a = b) :
    (l.filter p).length ≤ 1 := by
  rcases hfl : l.filter p with _ | ⟨a, _ | ⟨b, t⟩⟩
  · simp
  · simp
  · exfalso
    have ha : a ∈ l.filter p := by rw [hfl]; simp
    have hb : b ∈ l.filter p := by rw [hfl]; simp
    have hnd : (l.filter p).Nodup := hl.filter p
    rw [hfl] at hnd
    simp only [List.nodup_cons, List.mem_cons] at hnd
    have hab : a ≠ b := fun h => hnd.1 (Or.inl h)
    exact hab (hfun a ((List.mem_filter.1 ha).1) b ((List.mem_filter.1 hb).1)
      ((List.mem_filter.1 ha).2) ((List.mem_filter.1 hb).2))

theorem nodup_flatMap_key {α β κ : Type} (l : List α) (blk : α → List β)
    (akey : α → κ) (bkey : β → κ)
    (hnd : (l.map akey).Nodup)
    (hkey : ∀ a ∈ l, ∀ b ∈ blk a, bkey b = akey a)
    (hlen : ∀ a ∈ l, (blk a).length ≤ 1) :
    ((l.flatMap blk).map bkey).Nodup := by
  induction l with
  | nil => simp
  | cons a t ih =>
    simp only [List.flatMap_cons, List.map_append]
    rw [List.nodup_append]
    simp only [List.map_cons, List.nodup_cons, List.mem_map] at hnd
    refine ⟨?_, ?_, ?_⟩
    · exact nodup_le_one_length ((blk a).map bkey)
        (by rw [List.length_map]; exact hlen a (by simp))
    · exact ih hnd.2 (fun x hx => hkey x (by simp [hx])) (fun x hx => hlen x (by simp [hx]))
    · intro x hx hy
      simp only [List.mem_map] at hx
      obtain ⟨b, hb, rfl⟩ := hx
      have hxa : bkey b = akey a := hkey a (by simp) b hb
      simp only [List.mem_map, List.mem_flatMap] at hy
      obtain ⟨c, ⟨a', ha', hc⟩, hck⟩ := hy
      have : bkey c = akey a' := hkey a' (by simp [ha']) c hc
      exact hnd.1 ⟨a', ha', by rw [← this, hck, hxa]⟩

theorem find?_eq_head?_filter {α : Type} (p : α → Bool) (l : List α) :
    l.find? p = (l.filter p).head? := by
  induction l with
  | nil => rfl
  | cons a t ih =>
    cases h : p a with
    | true =>
      rw [List.find?_cons_of_pos _ h, List.filter_cons_of_pos h]
      rfl
    | false =>
      rw [List.find?_cons_of_neg _ (by simp [h]), List.filter_cons_of_neg (by simp [h])]
      exact ih

end Flood

namespace Flood

/-! ### Scaling lemmas: each aggregation statistic commutes with the
positive rescaling `x ↦ x * c` (used for the damages ×1000 rescale). -/

theorem sumQ_map_mul (c : ℚ) (l : List ℚ) :
    sumQ (l.map (fun x => x * c)) = sumQ l * c := by
  induction l with
  | nil => simp [sumQ]
  | cons a t ih => simp [sumQ, List.foldr_cons] at ih ⊢; rw [ih]; ring

theorem meanQ_map_mul (c : ℚ) (l : List ℚ) :
    meanQ (l.map (fun x => x * c)) = meanQ l * c := by
  unfold meanQ
  rw [sumQ_map_mul, List.length_map, mul_div_right_comm]

theorem foldl_max_map_mul (c : ℚ) (hc : 0 ≤ c) (l : List ℚ) (a : ℚ) :
    (l.map (fun x => x * c)).foldl max (a * c) = l.foldl max a * c := by
  induction l generalizing a with
  | nil => simp
  | cons b t ih =>
    simp only [List.map_cons, List.foldl_cons]
    rw [← max_mul_of_nonneg a b hc, ih]

theorem maxQ_map_mul (c : ℚ) (hc : 0 ≤ c) (l : List ℚ) :
    maxQ (l.map (fun x => x * c)) = maxQ l * c := by
  cases l with
  | nil => simp [maxQ]
  | cons a t => simp only [List.map_cons, maxQ]; exact foldl_max_map_mul c hc t a

theorem insertAsc_map_mul (c : ℚ) (hc : 0 < c) (x : ℚ) (l : List ℚ) :
    insertAsc (x * c) (l.map (fun v => v * c)) = (insertAsc x l).map (fun v => v * c) := by
  induction l with
  | nil => simp [insertAsc]
  | cons y t ih =>
    simp only [List.map_cons, insertAsc]
    by_cases h : x ≤ y
    · rw [if_pos ((mul_le_mul_right hc).2 h), if_pos h]; simp
    · rw [if_neg (fun hcon => h ((mul_le_mul_right hc).1 hcon)), if_neg h]
      simp only [List.map_cons, ih]

theorem sortQ_map_mul (c : ℚ) (hc : 0 < c) (l : List ℚ) :
    sortQ (l.map (fun v => v * c)) = (sortQ l).map (fun v => v * c) := by
  induction l with
  | nil => rfl
  | cons a t ih =>
    simp only [List.map_cons, sortQ]
    rw [ih, insertAsc_map_mul c hc]

theorem getD_map_mul (c : ℚ) (l : List ℚ) (i : Nat) :
    (l.map (fun v => v * c)).getD i 0 = l.getD i 0 * c := by
  induction l generalizing i with
  | nil => simp
  | cons a t ih =>
    cases i with
    | zero => simp
    | succ j => simpa using ih j

theorem medianQ_map_mul (c : ℚ) (hc : 0 < c) (l : List ℚ) :
    medianQ (l.map (fun v => v * c)) = medianQ l * c := by
  simp only [medianQ]
  rw [sortQ_map_mul c hc, List.length_map]
  by_cases h0 : (sortQ l).length = 0
  · simp [h0]
  · rw [if_neg h0, if_neg h0]
    by_cases hodd : (sortQ l).length % 2 = 1
    · rw [if_pos hodd, if_pos hodd, getD_map_mul]
    · rw [if_neg hodd, if_neg hodd, getD_map_mul, getD_map_mul]
      ring

theorem aggStat_map_mul (s : Stat) (c : ℚ) (hc : 0 < c) (l : List ℚ) :
    aggStat s (l.map (fun v => v * c)) = aggStat s l * c := by
  cases s with
  | mean => exact meanQ_map_mul c l
  | median => exact medianQ_map_mul c hc l
  | max => exact maxQ_map_mul c (le_of_lt hc) l
  | sum => exact sumQ_map_mul c l

end Flood

namespace App

/-! ### Ordering lemmas for the Top-N selection -/

theorem insertDesc_perm (x : String × ℚ) (l : List (String × ℚ)) :
    (insertDesc x l).Perm (x :: l) := by
  induction l with
  | nil => exact List.Perm.refl _
  | cons y ys ih =>
    simp only [insertDesc]
    by_cases h : y.2 ≤ x.2
    · rw [if_pos h]
    · rw [if_neg h]
      exact (ih.cons y).trans (List.Perm.swap x y ys)

theorem sortDesc_perm (l : List (String × ℚ)) : (sortDesc l).Perm l := by
  induction l with
  | nil => exact List.Perm.refl _
  | cons x xs ih =>
    exact (insertDesc_perm x (sortDesc xs)).trans (ih.cons x)

theorem mem_insertDesc (x a : String × ℚ) (l : List (String × ℚ)) :
    a ∈ insertDesc x l ↔ a = x ∨ a ∈ l := by
  rw [(insertDesc_perm x l).mem_iff]
  simp

theorem insertDesc_pairwise (x : String × ℚ) (l : List (String × ℚ))
    (h : l.Pairwise (fun a b => b.2 ≤ a.2)) :
    (insertDesc x l).Pairwise (fun a b => b.2 ≤ a.2) := by
  induction l with
  | nil => simp [insertDesc]
  | cons y ys ih =>
    simp only [insertDesc]
    rw [List.pairwise_cons] at h
    by_cases hxy : y.2 ≤ x.2
    · rw [if_pos hxy]
      rw [List.pairwise_cons]
      refine ⟨?_, List.Pairwise.cons h.1 h.2⟩
      intro b hb
      rcases List.mem_cons.1 hb with rfl | hb2
      · exact hxy
      · exact le_trans (h.1 b hb2) hxy
    · rw [if_neg hxy]
      rw [List.pairwise_cons]
      refine ⟨?_, ih h.2⟩
      intro b hb
      rcases (mem_insertDesc x b ys).1 hb with rfl | hb2
      · exact le_of_lt (lt_of_not_le hxy)
      · exact h.1 b hb2

theorem sortDesc_pairwise (l : List (String × ℚ)) :
    (sortDesc l).Pairwise (fun a b => b.2 ≤ a.2) := by
  induction l with
  | nil => simp [sortDesc]
  | cons x xs ih => exact insertDesc_pairwise x (sortDesc xs) ih

end App

namespace Flood

/-! ### Correspondence between the preprocessed table and the raw rows -/

/-- The row-level preprocessing applied to each kept row. -/
def prepRecord (r : Record) : Record := scaleDamages (applyCorrection r)

theorem floodSubset_eq (raws : List Record) :
    floodSubset raws = (raws.filter (fun r => r.monYr.isSome)).map prepRecord := by
  simp [floodSubset, prepRecord, List.map_map, Function.comp_def]

theorem applyCorrection_fields (r : Record) :
    (applyCorrection r).adm1_code = r.adm1_code ∧
    (applyCorrection r).ISO = r.ISO ∧
    (applyCorrection r).subregion = r.subregion ∧
    (applyCorrection r).monYr = r.monYr ∧
    (∀ m : Metric, metricVal m (applyCorrection r) = metricVal m r) := by
  unfold applyCorrection
  cases countryCorrection r.adm1_code with
  | none => exact ⟨rfl, rfl, rfl, rfl, fun m => rfl⟩
  | some c =>
    refine ⟨rfl, rfl, rfl, rfl, fun m => ?_⟩
    cases m <;> rfl

theorem prepRecord_fields (r : Record) :
    (prepRecord r).adm1_code = r.adm1_code ∧
    (prepRecord r).ISO = r.ISO ∧
    (prepRecord r).subregion = r.subregion ∧
    (prepRecord r).monYr = r.monYr := by
  obtain ⟨h1, h2, h3, h4, _⟩ := applyCorrection_fields r
  exact ⟨h1, h2, h3, h4⟩

theorem prepRecord_yearOf (r : Record) : yearOf (prepRecord r) = yearOf r := by
  unfold yearOf
  rw [(prepRecord_fields r).2.2.2]

theorem metricVal_prepRecord (r : Record) :
    metricVal .damages (prepRecord r) = r.damages * 1000 ∧
    ∀ m : Metric, m ≠ .damages → metricVal m (prepRecord r) = metricVal m r := by
  obtain ⟨_, _, _, _, hm⟩ := applyCorrection_fields r
  constructor
  · show (applyCorrection r).damages * 1000 = r.damages * 1000
    rw [show (applyCorrection r).damages = metricVal .damages (applyCorrection r) from rfl,
      hm .damages]
    rfl
  · intro m hmne
    have : metricVal m (scaleDamages (applyCorrection r)) = metricVal m (applyCorrection r) := by
      cases m with
      | damages => exact absurd rfl hmne
      | damages_norm => rfl
      | pop_affected => rfl
      | pop_affected_norm => rfl
      | flooded_area => rfl
      | flooded_area_norm => rfl
      | avg_precip => rfl
      | extreme_precip_75 => rfl
    exact this.trans (hm m)

theorem groupOf_map_key {κ : Type} [DecidableEq κ] (key : Record → κ)
    (f : Record → Record) (hf : ∀ r, key (f r) = key r)
    (l : List Record) (k : κ) :
    groupOf key (l.map f) k = (groupOf key l k).map f := by
  unfold groupOf
  rw [List.filter_map]
  congr 1
  apply List.filter_congr
  intro r _
  simp [Function.comp, hf r]

end Flood

open Flood App

/-! ## Claim theorems -/

/-- Claim C2: column resolution is a pure function of the selection
tuple.  "Flood Count" always resolves to "flood_count" whatever the
normalize flag; every other variable resolves to
`{base}_{statistic.lower()}` where the base is the normalized variant
exactly when normalization is requested AND such a variant exists; in
particular "Avg Precipitation (Flood)" resolves to "avg_precip_{stat}"
and "Avg 75th Percentile Precipitation (Flood)" to
"extreme_precip_75_{stat}", with normalization forced off for those
variables even when requested. -/
theorem C2_column_resolution :
    (∀ (n : Bool) (m : AggMetric), valueCol .floodCount n m = "flood_count") ∧
    (∀ (v : AppVariable) (n : Bool) (m : AggMetric), v ≠ .floodCount →
      valueCol v n m =
        (if n ∧ (var_map v).2.isSome then (var_map v).2.getD ""
         else (var_map v).1.getD "") ++ "_" ++ pyLower (aggMetricLabel m)) ∧
    (∀ (n : Bool) (m : AggMetric),
      valueCol .avgPrecip n m = "avg_precip_" ++ pyLower (aggMetricLabel m)) ∧
    (∀ (n : Bool) (m : AggMetric),
      valueCol .extremePrecip75 n m =
        "extreme_precip_75_" ++ pyLower (aggMetricLabel m)) ∧
    (∀ m : AggMetric,
      valueCol .avgPrecip true m = valueCol .avgPrecip false m ∧
      valueCol .extremePrecip75 true m = valueCol .extremePrecip75 false m) := by
  refine ⟨?_, ?_, ?_, ?_, ?_⟩
  · intro n m; cases n <;> cases m <;> rfl
  · intro v n m hv
    cases v <;> first
      | exact absurd rfl hv
      | (cases n <;> cases m <;> rfl)
  · intro n m; cases n <;> cases m <;> rfl
  · intro n m; cases n <;> cases m <;> rfl
  · intro m; cases m <;> exact ⟨rfl, rfl⟩

/-- Witness for C2 at a concrete selection tuple: "Economic Damages"
with normalization and statistic "Sum" resolves through the general
clause, and "Flood Count" ignores the normalize flag. -/
theorem C2_column_resolution_witness :
    valueCol .econDamages true .sum = "damages_norm_sum" ∧
    valueCol .floodCount true .mean = "flood_count" := by
  constructor
  · rw [C2_column_resolution.2.1 .econDamages true .sum (by intro h; cases h)]
    rfl
  · exact C2_column_resolution.1 true .mean

/-- Claim C7 as stated is false: `main` exports the five parquet files
one after another, so a run that fails at the country export (stage
index 4), after the admin1 export completed, leaves the admin1 file
already overwritten — a partial overwrite of the output set. -/
theorem C7_counterexample :
    mainStages.get? 4 = some (.exportFile .country) ∧
    writtenOnFailureAt 4 ≠ [] ∧
    writtenOnFailureAt 4 = [.admin1] := by
  refine ⟨by decide, by decide, by decide⟩

/-- Claim C7 amended: a failure at any stage before the export section
(the three computation stages, indices 0-2, i.e. completing at most 3
stages) leaves every output file untouched, and in general a run
failing after `k` completed stages has overwritten exactly a prefix of
the five output files in export order — so atomicity holds up to the
start of the export sequence, but a failure inside the export sequence
leaves a partial overwrite. -/
theorem C7_export_sequence (k : Nat) :
    (k ≤ 3 → writtenOnFailureAt k = []) ∧
    writtenOnFailureAt k = allOutFiles.take (k - 3) := by
  by_cases h : k ≤ 8
  · interval_cases k <;> exact ⟨by decide, by decide⟩
  · push_neg at h
    have h1 : writtenOnFailureAt k = allOutFiles := by
      unfold writtenOnFailureAt
      rw [List.take_of_length_le
        (le_trans (by rw [show mainStages.length = 8 from rfl]) (le_of_lt h))]
      rfl
    have h2 : allOutFiles.take (k - 3) = allOutFiles :=
      List.take_of_length_le
        (by rw [show allOutFiles.length = 5 from rfl]; omega)
    exact ⟨fun h3 => absurd h3 (by omega), h1.trans h2.symm⟩

/-- Witness for C7s amendment: a failure after 2 completed stages (in
the computation section) has written nothing; a failure after 6
completed stages has written exactly the first three files. -/
theorem C7_export_sequence_witness :
    writtenOnFailureAt 2 = [] ∧
    writtenOnFailureAt 6 = allOutFiles.take 3 :=
  ⟨(C7_export_sequence 2).1 (by decide), (C7_export_sequence 6).2⟩

/-- Claim C8: the Top-N selection returns the rows with the N largest
values of the resolved column in descending value order: the output of
`nlargestBy` is sorted descending, `sortDesc` permutes the input and
every kept row dominates every dropped row; for values
{A:10, B:50, C:30} and N=2 the output is [B, C]; and the slider bound
is 30 for admin1 and country, 15 for UN subregion. -/
theorem C8_top_n :
    (∀ (n : Nat) (rows : List (String × ℚ)),
      (nlargestBy n rows).Pairwise (fun a b => b.2 ≤ a.2)) ∧
    (∀ rows : List (String × ℚ), (sortDesc rows).Perm rows) ∧
    (∀ (n : Nat) (rows : List (String × ℚ)),
      ∀ x ∈ nlargestBy n rows, ∀ y ∈ (sortDesc rows).drop n, y.2 ≤ x.2) ∧
    nlargestBy 2 [("A", 10), ("B", 50), ("C", 30)] = [("B", 50), ("C", 30)] ∧
    maxRegions .admin1 = 30 ∧ maxRegions .country = 30 ∧
    maxRegions .subregion = 15 := by
  refine ⟨?_, sortDesc_perm, ?_, by decide, rfl, rfl, rfl⟩
  · intro n rows
    exact List.Pairwise.sublist (List.take_sublist n _) (sortDesc_pairwise rows)
  · intro n rows x hx y hy
    have hp := sortDesc_pairwise rows
    rw [← List.take_append_drop n (sortDesc rows), List.pairwise_append] at hp
    exact hp.2.2 x hx y hy

/-- Witness for C8 at the concrete example: row ("B", 50) is kept by
the N=2 selection, row ("A", 10) is dropped, and the theorem yields
10 ≤ 50. -/
theorem C8_top_n_witness :
    (("B", (50 : ℚ)) ∈ nlargestBy 2 [("A", 10), ("B", 50), ("C", 30)]) ∧
    (("A", (10 : ℚ)) ∈ (sortDesc [("A", 10), ("B", 50), ("C", 30)]).drop 2) ∧
    (10 : ℚ) ≤ 50 := by
  refine ⟨by decide, by decide, ?_⟩
  exact C8_top_n.2.2.1 2 [("A", 10), ("B", 50), ("C", 30)]
    ("B", 50) (by decide) ("A", 10) (by decide)

/-- Claim C9: the preprocessing pipeline is deterministic — a pure
function of its input files with no dependence on time, run order or
hidden state; two runs on identical inputs produce identical output
tables. -/
theorem C9_deterministic (inp1 inp2 : PipelineInput) (h : inp1 = inp2) :
    runPipeline inp1 = runPipeline inp2 := by rw [h]

/-- Witness for C9: two runs on the concrete example input agree. -/
theorem C9_deterministic_witness :
    runPipeline exInput = runPipeline exInput :=
  C9_deterministic exInput exInput rfl

/-- Claim C1: for every region key R and every one of the 8 metrics M,
the `{M}_sum` cell of row R of each aggregate table is the arithmetic
sum of M over the event records of the preprocessed table (only records
with a non-missing month-year key survive into it) whose region key is
R; and the end-to-end scenario: aggregating the records
{(adm1=10, yr=2020, damages=100), (adm1=10, yr=2021, damages=300),
(adm1=20, yr=2020, damages=50)} by admin1 yields sums {10: 400, 20: 50}
and the annual totals yield {2020: 150, 2021: 300}. -/
theorem C1_sum_aggregation :
    (∀ raws : List Record, ∀ row ∈ admin1AggRows (floodSubset raws), ∀ m : Metric,
      row.stat m .sum =
        sumQ (((floodSubset raws).filter
          (fun r => r.adm1_code = row.adm1_code)).map (metricVal m))) ∧
    (∀ raws : List Record, ∀ row ∈ countryAggRows (floodSubset raws), ∀ m : Metric,
      row.stat m .sum =
        sumQ (((floodSubset raws).filter
          (fun r => r.ISO = row.ISO)).map (metricVal m))) ∧
    (∀ raws : List Record,
      ∀ row ∈ aggTable (fun r => r.subregion) (floodSubset raws), ∀ m : Metric,
      row.stat m .sum =
        sumQ (((floodSubset raws).filter
          (fun r => r.subregion = row.key)).map (metricVal m))) ∧
    (∀ raws : List Record, ∀ row ∈ annualRows (floodSubset raws), ∀ m : Metric,
      row.total m =
        sumQ (((floodSubset raws).filter
          (fun r => yearOf r = row.year)).map (metricVal m))) ∧
    (admin1AggRows exRecs).map (fun r => (r.adm1_code, r.stat .damages .sum)) =
      [(10, 400), (20, 50)] ∧
    (annualRows exRecs).map (fun r => (r.year, r.total .damages)) =
      [(2020, 150), (2021, 300)] := by
  refine ⟨?_, ?_, ?_, ?_, ?_, ?_⟩
  · intro raws row hrow m
    obtain ⟨k, hk, rfl⟩ := List.mem_map.1 hrow
    rfl
  · intro raws row hrow m
    obtain ⟨k, hk, hblk⟩ := List.mem_flatMap.1 hrow
    dsimp only [] at hblk
    split at hblk
    · simp only [List.mem_singleton] at hblk
      subst hblk
      rfl
    · obtain ⟨p, hp, rfl⟩ := List.mem_map.1 hblk
      rfl
  · intro raws row hrow m
    obtain ⟨k, hk, rfl⟩ := List.mem_map.1 hrow
    rfl
  · intro raws row hrow m
    obtain ⟨k, hk, rfl⟩ := List.mem_map.1 hrow
    rfl
  · simp +decide [admin1AggRows, keysOf, uniqueKeys, uniqueKeysFrom, groupOf,
      mkAggRow, aggStat, sumQ, metricVal, exRecs, exRec, List.filter]
    norm_num
  · simp +decide [annualRows, keysOf, uniqueKeys, uniqueKeysFrom, groupOf,
      aggStat, sumQ, metricVal, exRecs, exRec, List.filter, yearOf, natOfChars]
    norm_num

/-- Witness for C1: the first row of the admin1 aggregate over the
scenario records satisfies the sum property. -/
theorem C1_sum_aggregation_witness :
    ((admin1AggRows (floodSubset exRecs)).get ⟨0, by decide⟩ ∈
      admin1AggRows (floodSubset exRecs)) ∧
    ((admin1AggRows (floodSubset exRecs)).get ⟨0, by decide⟩).stat .damages .sum =
      sumQ (((floodSubset exRecs).filter (fun r => r.adm1_code =
        ((admin1AggRows (floodSubset exRecs)).get ⟨0, by decide⟩).adm1_code)).map
        (metricVal .damages)) :=
  ⟨List.get_mem _ _ _,
   C1_sum_aggregation.1 exRecs _ (List.get_mem _ _ _) .damages⟩

/-- Claim C4: for every region key (admin1 code, ISO code, UN
subregion) and for every year of the annual table, the `flood_count`
cell of its aggregate row is the number of event records of the
preprocessed table with that key. -/
theorem C4_flood_count :
    (∀ raws : List Record, ∀ row ∈ admin1AggRows (floodSubset raws),
      row.flood_count =
        ((floodSubset raws).filter (fun r => r.adm1_code = row.adm1_code)).length) ∧
    (∀ raws : List Record, ∀ row ∈ countryAggRows (floodSubset raws),
      row.flood_count =
        ((floodSubset raws).filter (fun r => r.ISO = row.ISO)).length) ∧
    (∀ raws : List Record,
      ∀ row ∈ aggTable (fun r => r.subregion) (floodSubset raws),
      row.flood_count =
        ((floodSubset raws).filter (fun r => r.subregion = row.key)).length) ∧
    (∀ raws : List Record, ∀ row ∈ annualRows (floodSubset raws),
      row.flood_count =
        ((floodSubset raws).filter (fun r => yearOf r = row.year)).length) ∧
    (admin1AggRows exRecs).map (fun r => (r.adm1_code, r.flood_count)) =
      [(10, 2), (20, 1)] ∧
    (annualRows exRecs).map (fun r => (r.year, r.flood_count)) =
      [(2020, 2), (2021, 1)] := by
  refine ⟨?_, ?_, ?_, ?_, by decide, by decide⟩
  · intro raws row hrow
    obtain ⟨k, hk, rfl⟩ := List.mem_map.1 hrow
    rfl
  · intro raws row hrow
    obtain ⟨k, hk, hblk⟩ := List.mem_flatMap.1 hrow
    dsimp only [] at hblk
    split at hblk
    · simp only [List.mem_singleton] at hblk
      subst hblk
      rfl
    · obtain ⟨p, hp, rfl⟩ := List.mem_map.1 hblk
      rfl
  · intro raws row hrow
    obtain ⟨k, hk, rfl⟩ := List.mem_map.1 hrow
    rfl
  · intro raws row hrow
    obtain ⟨k, hk, rfl⟩ := List.mem_map.1 hrow
    rfl

/-- Witness for C4: the first row of the admin1 aggregate over the
scenario records counts its group. -/
theorem C4_flood_count_witness :
    ((admin1AggRows (floodSubset exRecs)).get ⟨0, by decide⟩ ∈
      admin1AggRows (floodSubset exRecs)) ∧
    ((admin1AggRows (floodSubset exRecs)).get ⟨0, by decide⟩).flood_count =
      ((floodSubset exRecs).filter (fun r => r.adm1_code =
        ((admin1AggRows (floodSubset exRecs)).get ⟨0, by decide⟩).adm1_code)).length :=
  ⟨List.get_mem _ _ _, C4_flood_count.1 exRecs _ (List.get_mem _ _ _)⟩

/-- Claim C3: the geometry join is inner and lossy.  A region key
present in the events but absent from the admin1 (resp. country)
geometry table yields no row of the admin1 (resp. country) output; yet
any kept event record still reaches the subregion aggregate — its
subregion row exists (given subregion geometry) with a positive flood
count — because aggregation happens before the geometry join. -/
theorem C3_geometry_join_lossy :
    (∀ (raws : List Record) (geo : List (Int × Nat)) (c : Int),
      c ∉ geo.map Prod.fst →
      ∀ t ∈ geoInnerJoin geo (admin1AggRows (floodSubset raws))
          (fun r => r.adm1_code),
        t.1 ≠ c ∧ t.2.2.adm1_code ≠ c) ∧
    (∀ (raws : List Record) (geo : List (String × Nat)) (iso : String),
      iso ∉ geo.map Prod.fst →
      ∀ t ∈ geoInnerJoin geo (countryAggRows (floodSubset raws))
          (fun r => r.ISO),
        t.1 ≠ iso ∧ t.2.2.ISO ≠ iso) ∧
    (∀ (raws : List Record) (r : Record), r ∈ raws → r.monYr.isSome →
      ∀ subGeo : List (String × Nat), r.subregion ∈ subGeo.map Prod.fst →
      ∃ t ∈ geoInnerJoin subGeo
          (aggTable (fun x => x.subregion) (floodSubset raws))
          (fun row => row.key),
        t.1 = r.subregion ∧ 1 ≤ t.2.2.flood_count) := by
  refine ⟨?_, ?_, ?_⟩
  · intro raws geo c hc t ht
    obtain ⟨g, hg, ht2⟩ := List.mem_flatMap.1 ht
    obtain ⟨row, hrowf, rfl⟩ := List.mem_map.1 ht2
    have h1 : g.1 ≠ c := fun h => hc (List.mem_map.2 ⟨g, hg, h⟩)
    have h2 : row.adm1_code = g.1 := by
      have := (List.mem_filter.1 hrowf).2
      simpa using this
    exact ⟨h1, fun h => h1 (h2 ▸ h)⟩
  · intro raws geo iso hc t ht
    obtain ⟨g, hg, ht2⟩ := List.mem_flatMap.1 ht
    obtain ⟨row, hrowf, rfl⟩ := List.mem_map.1 ht2
    have h1 : g.1 ≠ iso := fun h => hc (List.mem_map.2 ⟨g, hg, h⟩)
    have h2 : row.ISO = g.1 := by
      have := (List.mem_filter.1 hrowf).2
      simpa using this
    exact ⟨h1, fun h => h1 (h2 ▸ h)⟩
  · intro raws r hr hsome subGeo hgeo
    have hmem : prepRecord r ∈ floodSubset raws := by
      rw [floodSubset_eq]
      exact List.mem_map_of_mem _ (List.mem_filter.2 ⟨hr, hsome⟩)
    have hkey : (prepRecord r).subregion = r.subregion := (prepRecord_fields r).2.2.1
    have hks : r.subregion ∈ keysOf (fun x => x.subregion) (floodSubset raws) := by
      rw [keysOf, mem_uniqueKeys]
      exact List.mem_map.2 ⟨prepRecord r, hmem, hkey⟩
    obtain ⟨g, hg, hg1⟩ := List.mem_map.1 hgeo
    refine ⟨(g.1, g.2, mkAggRow (fun x => x.subregion) (floodSubset raws) r.subregion),
      ?_, hg1, ?_⟩
    · apply List.mem_flatMap.2
      refine ⟨g, hg, ?_⟩
      apply List.mem_map.2
      refine ⟨mkAggRow (fun x => x.subregion) (floodSubset raws) r.subregion, ?_, rfl⟩
      apply List.mem_filter.2
      refine ⟨List.mem_map.2 ⟨r.subregion, hks, rfl⟩, by simp [mkAggRow, hg1]⟩
    · show 1 ≤ (groupOf (fun x => x.subregion) (floodSubset raws) r.subregion).length
      have hginz : prepRecord r ∈ groupOf (fun x => x.subregion) (floodSubset raws) r.subregion :=
        List.mem_filter.2 ⟨hmem, by simp [hkey]⟩
      exact List.length_pos.2 (List.ne_nil_of_mem hginz)

/-- Witness for C3: the scenario record with admin1 code 20 has no
geometry in the mock boundary table [(10, 7)] — so no admin1 output row
carries code 20 — yet its subregion "S" reaches the subregion output
with a positive flood count. -/
theorem C3_geometry_join_lossy_witness :
    ((20 : Int) ∉ ([((10 : Int), 7)].map Prod.fst)) ∧
    (∀ t ∈ geoInnerJoin [((10 : Int), 7)] (admin1AggRows (floodSubset exRecs))
        (fun r => r.adm1_code), t.1 ≠ 20 ∧ t.2.2.adm1_code ≠ 20) ∧
    (exRec 20 "01-2020" 50 ∈ exRecs) ∧
    (∃ t ∈ geoInnerJoin [("S", 3)]
        (aggTable (fun x => x.subregion) (floodSubset exRecs)) (fun row => row.key),
      t.1 = (exRec 20 "01-2020" 50).subregion ∧ 1 ≤ t.2.2.flood_count) := by
  have hm : exRec 20 "01-2020" 50 ∈ exRecs := by
    unfold exRecs
    exact List.mem_cons_of_mem _ (List.mem_cons_of_mem _ (List.mem_cons_self _ _))
  exact ⟨by decide, C3_geometry_join_lossy.1 exRecs _ 20 (by decide), hm,
    C3_geometry_join_lossy.2.2 exRecs _ hm rfl [("S", 3)] (by decide)⟩

/-- Claim C5 as stated is false: the admin1 display name is taken from
the FIRST event record of the group (`drop_duplicates` keeps the first
row), not from the first non-null value.  With a group whose first
record has a null name and whose second carries "Foo", the pipeline
emits the synthesized fallback while the first non-null value is
"Foo". -/
theorem C5_counterexample :
    ((admin1AggRows (floodSubset [noNameRec, namedRec])).map
      (fun r => (r.adm1_code, r.adm1_name))) = [(5, unknownName 5)] ∧
    firstNonNull ((groupOf (fun r => r.adm1_code)
      (floodSubset [noNameRec, namedRec]) 5).map (fun r => r.adm1_name)) =
      some "Foo" ∧
    unknownName 5 ≠ "Foo" :=
  ⟨by decide, by decide, by decide⟩

/-- Claim C5 amended: the name columns of an admin1 aggregate row
(region name and country name) are taken from the first event record
of its group — null or not — and the region name is replaced by the
fallback "Unknown Name (code: <code>)" when it is missing or equals
the sentinel "Administrative unit not available". -/
theorem C5_first_row_name (events : List Record) (row : Admin1Row)
    (hrow : row ∈ admin1AggRows events) :
    row.adm1_name = fixAdmin1Name row.adm1_code
      (((events.filter (fun r => r.adm1_code = row.adm1_code)).head?).bind
        (fun r => r.adm1_name)) ∧
    row.country =
      ((events.filter (fun r => r.adm1_code = row.adm1_code)).head?).bind
        (fun r => r.country) := by
  obtain ⟨k, hk, rfl⟩ := List.mem_map.1 hrow
  constructor
  · show fixAdmin1Name k ((events.find? (fun r => r.adm1_code = k)).bind
      (fun r => r.adm1_name)) = _
    rw [find?_eq_head?_filter]
  · show (events.find? (fun r => r.adm1_code = k)).bind (fun r => r.country) = _
    rw [find?_eq_head?_filter]

/-- Witness for C5s amendment at the two-record group: the emitted
name is the fallback computed from the head of the group. -/
theorem C5_first_row_name_witness :
    ((admin1AggRows [noNameRec, namedRec]).get ⟨0, by decide⟩ ∈
      admin1AggRows [noNameRec, namedRec]) ∧
    ((admin1AggRows [noNameRec, namedRec]).get ⟨0, by decide⟩).adm1_name =
      fixAdmin1Name
        ((admin1AggRows [noNameRec, namedRec]).get ⟨0, by decide⟩).adm1_code
        ((([noNameRec, namedRec].filter (fun r => r.adm1_code =
          ((admin1AggRows [noNameRec, namedRec]).get ⟨0, by decide⟩).adm1_code)).head?).bind
          (fun r => r.adm1_name)) :=
  ⟨List.get_mem _ _ _,
   (C5_first_row_name [noNameRec, namedRec] _ (List.get_mem _ _ _)).1⟩

/-- Mapping a key-projection back over rows built from a key list
recovers the key list. -/
theorem map_key_map_mk {κ β : Type} (keys : List κ) (mk : κ → β)
    (proj : β → κ) (h : ∀ k, proj (mk k) = k) :
    (keys.map mk).map proj = keys := by
  rw [List.map_map]
  have hc : (proj ∘ mk) = id := funext h
  rw [hc, List.map_id]

/-- The key column of a generic aggregate table is its groupby key
set. -/
theorem aggTable_keys {κ : Type} [DecidableEq κ] (key : Record → κ)
    (events : List Record) :
    (aggTable key events).map (fun r => r.key) = keysOf key events := by
  unfold aggTable
  exact map_key_map_mk _ _ _ (fun k => rfl)

/-- The key column of the admin1 aggregate table is its groupby key
set. -/
theorem admin1AggRows_keys (events : List Record) :
    (admin1AggRows events).map (fun r => r.adm1_code) =
      keysOf (fun r => r.adm1_code) events := by
  unfold admin1AggRows
  exact map_key_map_mk _ _ _ (fun k => rfl)

/-- The year column of the annual table is its groupby key set. -/
theorem annualRows_keys (events : List Record) :
    (annualRows events).map (fun r => r.year) = keysOf yearOf events := by
  unfold annualRows
  exact map_key_map_mk _ _ _ (fun k => rfl)

/-- The ISO column of the country aggregate table has no duplicates
provided each ISO carries a single country name in the event table. -/
theorem countryAggRows_keys_nodup (events : List Record)
    (hiso : ∀ r1 ∈ events, ∀ r2 ∈ events,
      r1.ISO = r2.ISO → r1.country = r2.country) :
    ((countryAggRows events).map (fun r => r.ISO)).Nodup := by
  unfold countryAggRows
  refine nodup_flatMap_key _ _ id (fun r : CountryRow => r.ISO) ?_ ?_ ?_
  · rw [List.map_id]; exact uniqueKeys_nodup _
  · intro k hk row hrow
    dsimp only [] at hrow
    split at hrow
    · simp only [List.mem_singleton] at hrow
      subst hrow
      rfl
    · obtain ⟨p, hp, rfl⟩ := List.mem_map.1 hrow
      rfl
  · intro k hk
    dsimp only []
    split
    · simp
    · rw [List.length_map]
      apply length_filter_le_one_of_eq
      · exact uniqueKeys_nodup _
      · intro a ha b hb hpa hpb
        rw [show isoCountryPairs events =
          uniqueKeys (events.map (fun r => (r.ISO, r.country))) from rfl,
          mem_uniqueKeys] at ha hb
        obtain ⟨r1, hr1, rfl⟩ := List.mem_map.1 ha
        obtain ⟨r2, hr2, rfl⟩ := List.mem_map.1 hb
        have h1 : r1.ISO = k := by simpa using hpa
        have h2 : r2.ISO = k := by simpa using hpb
        have hc := hiso r1 hr1 r2 hr2 (h1.trans h2.symm)
        rw [Prod.mk.injEq]
        exact ⟨h1.trans h2.symm, hc⟩

/-- An inner geometry join has pairwise-distinct keys when both sides
do. -/
theorem geoInnerJoin_keys_nodup {κ β : Type} [DecidableEq κ]
    (geo : List (κ × Nat)) (agg : List β) (key : β → κ)
    (hgeo : (geo.map Prod.fst).Nodup) (hagg : (agg.map key).Nodup) :
    ((geoInnerJoin geo agg key).map (fun t => t.1)).Nodup := by
  unfold geoInnerJoin
  refine nodup_flatMap_key geo _ Prod.fst (fun t : κ × Nat × β => t.1)
    hgeo ?_ ?_
  · intro g hg t ht
    obtain ⟨row, hrow, rfl⟩ := List.mem_map.1 ht
    rfl
  · intro g hg
    rw [List.length_map]
    exact length_filter_key_le_one key agg hagg g.1

/-- The dissolve step emits one row per subregion, so its key column
has no duplicates. -/
theorem dissolveSubregions_keys_nodup (m49 : List (String × String))
    (cg : List (String × Nat)) :
    ((dissolveSubregions m49 cg).map Prod.fst).Nodup := by
  unfold dissolveSubregions
  rw [map_key_map_mk _ _ _ (fun s => rfl)]
  exact uniqueKeys_nodup _

/-- Claim C6 as stated is false: the country-name merge
(`drop_duplicates()` with no column subset, then a left merge on ISO)
duplicates a country aggregate row whenever one ISO occurs with two
distinct country names, so the exported country table can carry two
rows with the same region key. -/
theorem C6_counterexample :
    ((runPipeline dupIsoInput).country.map (fun t => t.1)) = ["AAA", "AAA"] ∧
    ¬ ((runPipeline dupIsoInput).country.map (fun t => t.1)).Nodup :=
  ⟨by decide, by decide⟩

/-- Claim C6 amended: every exported table has one row per region/year
key provided (a) the admin1 and country geometry tables have no
duplicate keys and (b) each ISO carries a single country name in the
preprocessed event table.  (The subregion geometry is deduplicated by
construction via `dissolve`, and the groupby key sets are always
duplicate-free; clause (b) is what the original claim missed.) -/
theorem C6_unique_keys (inp : PipelineInput)
    (hga : (inp.gaulGeo.map Prod.fst).Nodup)
    (hcg : (inp.countryGeo.map Prod.fst).Nodup)
    (hiso : ∀ r1 ∈ floodSubset inp.floodRaw, ∀ r2 ∈ floodSubset inp.floodRaw,
      r1.ISO = r2.ISO → r1.country = r2.country) :
    ((runPipeline inp).admin1.map (fun t => t.1)).Nodup ∧
    ((runPipeline inp).country.map (fun t => t.1)).Nodup ∧
    ((runPipeline inp).subregion.map (fun t => t.1)).Nodup ∧
    ((runPipeline inp).annual.map (fun r => r.year)).Nodup := by
  simp only [runPipeline]
  refine ⟨?_, ?_, ?_, ?_⟩
  · apply geoInnerJoin_keys_nodup _ _ _ hga
    rw [admin1AggRows_keys]
    exact uniqueKeys_nodup _
  · exact geoInnerJoin_keys_nodup _ _ _ hcg (countryAggRows_keys_nodup _ hiso)
  · exact geoInnerJoin_keys_nodup _ _ _ (dissolveSubregions_keys_nodup _ _)
      (by rw [aggTable_keys]; exact uniqueKeys_nodup _)
  · rw [annualRows_keys]
    exact uniqueKeys_nodup _

/-- Witness for C6s amendment at the concrete example input: geometry
keys are duplicate-free and each ISO has a single country name, so the
country output has pairwise-distinct keys. -/
theorem C6_unique_keys_witness :
    ((exInput.gaulGeo.map Prod.fst).Nodup) ∧
    ((exInput.countryGeo.map Prod.fst).Nodup) ∧
    ((runPipeline exInput).country.map (fun t => t.1)).Nodup :=
  ⟨by decide, by decide,
   (C6_unique_keys exInput (by decide) (by decide) (by decide)).2.1⟩

/-- Each aggregation statistic of the preprocessed damages column of a
group is 1000 times the same statistic of the raw (thousands-of-
dollars) source column over the same group, while every other metric
passes through unscaled. -/
theorem group_stats_scaled {κ : Type} [DecidableEq κ] (key : Record → κ)
    (hkey : ∀ r, key (prepRecord r) = key r) (raws : List Record) (k : κ)
    (s : Stat) :
    aggStat s ((groupOf key (floodSubset raws) k).map (metricVal .damages)) =
      aggStat s ((groupOf key (raws.filter (fun r => r.monYr.isSome)) k).map
        (fun r => r.damages)) * 1000 ∧
    ∀ m : Metric, m ≠ .damages →
      aggStat s ((groupOf key (floodSubset raws) k).map (metricVal m)) =
        aggStat s ((groupOf key (raws.filter (fun r => r.monYr.isSome)) k).map
          (metricVal m)) := by
  rw [floodSubset_eq, groupOf_map_key key prepRecord hkey]
  constructor
  · rw [List.map_map]
    rw [show (metricVal .damages ∘ prepRecord) =
      ((fun v => v * 1000) ∘ (fun r : Record => r.damages)) from
      funext fun r => (metricVal_prepRecord r).1]
    rw [← List.map_map]
    exact aggStat_map_mul s 1000 (by norm_num) _
  · intro m hm
    rw [List.map_map]
    rw [show (metricVal m ∘ prepRecord) = metricVal m from
      funext fun r => (metricVal_prepRecord r).2 m hm]

/-- Claim C10: before any aggregation the damages column is rescaled
to whole dollars, so every exported `damages_{mean,median,max,sum}`
cell (admin1, country, subregion) and every annual damages total is
exactly 1000 times the corresponding statistic of the raw source
column "Total Damage, Adjusted ('000 US$) (population-weighted)" over
the same (dropna-filtered) group, while `damages_norm` and all other
metrics pass through unscaled. -/
theorem C10_damages_rescaled :
    (∀ raws : List Record, ∀ row ∈ admin1AggRows (floodSubset raws), ∀ s : Stat,
      row.stat .damages s =
        aggStat s (((raws.filter (fun r => r.monYr.isSome)).filter
          (fun r => r.adm1_code = row.adm1_code)).map (fun r => r.damages)) * 1000 ∧
      ∀ m : Metric, m ≠ .damages →
        row.stat m s =
          aggStat s (((raws.filter (fun r => r.monYr.isSome)).filter
            (fun r => r.adm1_code = row.adm1_code)).map (metricVal m))) ∧
    (∀ raws : List Record, ∀ row ∈ countryAggRows (floodSubset raws), ∀ s : Stat,
      row.stat .damages s =
        aggStat s (((raws.filter (fun r => r.monYr.isSome)).filter
          (fun r => r.ISO = row.ISO)).map (fun r => r.damages)) * 1000 ∧
      ∀ m : Metric, m ≠ .damages →
        row.stat m s =
          aggStat s (((raws.filter (fun r => r.monYr.isSome)).filter
            (fun r => r.ISO = row.ISO)).map (metricVal m))) ∧
    (∀ raws : List Record,
      ∀ row ∈ aggTable (fun r => r.subregion) (floodSubset raws), ∀ s : Stat,
      row.stat .damages s =
        aggStat s (((raws.filter (fun r => r.monYr.isSome)).filter
          (fun r => r.subregion = row.key)).map (fun r => r.damages)) * 1000 ∧
      ∀ m : Metric, m ≠ .damages →
        row.stat m s =
          aggStat s (((raws.filter (fun r => r.monYr.isSome)).filter
            (fun r => r.subregion = row.key)).map (metricVal m))) ∧
    (∀ raws : List Record, ∀ row ∈ annualRows (floodSubset raws),
      row.total .damages =
        sumQ (((raws.filter (fun r => r.monYr.isSome)).filter
          (fun r => yearOf r = row.year)).map (fun r => r.damages)) * 1000 ∧
      ∀ m : Metric, m ≠ .damages →
        row.total m =
          sumQ (((raws.filter (fun r => r.monYr.isSome)).filter
            (fun r => yearOf r = row.year)).map (metricVal m))) := by
  refine ⟨?_, ?_, ?_, ?_⟩
  · intro raws row hrow s
    obtain ⟨k, hk, rfl⟩ := List.mem_map.1 hrow
    exact group_stats_scaled (fun r => r.adm1_code)
      (fun r => (prepRecord_fields r).1) raws k s
  · intro raws row hrow s
    obtain ⟨k, hk, hblk⟩ := List.mem_flatMap.1 hrow
    dsimp only [] at hblk
    have hres := group_stats_scaled (fun r => r.ISO)
      (fun r => (prepRecord_fields r).2.1) raws k s
    split at hblk
    · simp only [List.mem_singleton] at hblk
      subst hblk
      exact hres
    · obtain ⟨p, hp, rfl⟩ := List.mem_map.1 hblk
      exact hres
  · intro raws row hrow s
    obtain ⟨k, hk, rfl⟩ := List.mem_map.1 hrow
    exact group_stats_scaled (fun r => r.subregion)
      (fun r => (prepRecord_fields r).2.2.1) raws k s
  · intro raws row hrow
    obtain ⟨k, hk, rfl⟩ := List.mem_map.1 hrow
    have hres := group_stats_scaled yearOf prepRecord_yearOf raws k .sum
    exact ⟨hres.1, fun m hm => hres.2 m hm⟩

/-- Witness for C10: on the scenario records, the first admin1 row has
its damages sum equal to 1000 times the raw sum and its population sum
unscaled. -/
theorem C10_damages_rescaled_witness :
    ((admin1AggRows (floodSubset exRecs)).get ⟨0, by decide⟩ ∈
      admin1AggRows (floodSubset exRecs)) ∧
    (Metric.pop_affected ≠ Metric.damages) ∧
    ((admin1AggRows (floodSubset exRecs)).get ⟨0, by decide⟩).stat .damages .sum =
      aggStat .sum (((exRecs.filter (fun r => r.monYr.isSome)).filter
        (fun r => r.adm1_code =
          ((admin1AggRows (floodSubset exRecs)).get ⟨0, by decide⟩).adm1_code)).map
        (fun r => r.damages)) * 1000 ∧
    ((admin1AggRows (floodSubset exRecs)).get ⟨0, by decide⟩).stat .pop_affected .sum =
      aggStat .sum (((exRecs.filter (fun r => r.monYr.isSome)).filter
        (fun r => r.adm1_code =
          ((admin1AggRows (floodSubset exRecs)).get ⟨0, by decide⟩).adm1_code)).map
        (metricVal .pop_affected)) :=
  ⟨List.get_mem _ _ _, by decide,
   (C10_damages_rescaled.1 exRecs _ (List.get_mem _ _ _) .sum).1,
   (C10_damages_rescaled.1 exRecs _ (List.get_mem _ _ _) .sum).2
     .pop_affected (by decide)⟩
